import Mathlib

/-!
Verification development for the EScraper repository.

The repository has three Python source files:
* `website_scraper.py` — class `WebsiteScraper`: sitemap discovery, recursive
  URL extraction, page download with link rewriting, index page and report
  generation, under a cooperative stop callback and a page budget;
* `sitemap_scraper.py` — class `QuranSitemapScraper`: sitemap discovery and
  recursive download of nested sitemaps with a `found_sitemaps` visited set;
* `app.py` — Flask control shell: start/stop endpoints and the run wrapper.

Every definition below is a shallow embedding of a function of those files
(the source line numbers are given in each doc comment).  HTTP transport and
XML/HTML parsing are out of scope per the specification and are modelled as
oracle functions supplied as parameters.  Definitions whose name contains
`Spec` follow the specification's words instead and exist only to be compared
with the source-derived definitions.
-/

/-- Python `str.strip(ch)` for a single strip character: removes every copy of
`ch` from both ends of a character list (models `path.strip('/')`). -/
def stripChar (ch : Char) (l : List Char) : List Char :=
  ((l.dropWhile (· = ch)).reverse.dropWhile (· = ch)).reverse

/-- Python `str.strip()` with no argument: removes whitespace from both ends. -/
def stripWs (l : List Char) : List Char :=
  ((l.dropWhile Char.isWhitespace).reverse.dropWhile Char.isWhitespace).reverse

/-- String wrapper around `stripWs` (Python `str.strip()`). -/
def pyStrip (s : String) : String := String.mk (stripWs s.toList)

/-- Split a character list at the first occurrence of `sep`; the second
component is `none` when `sep` does not occur (models Python `str.find` +
slicing, and `str.split(sep, 1)`). -/
def splitFirst (sep : Char) : List Char → List Char × Option (List Char)
  | [] => ([], none)
  | c :: rest =>
    if c = sep then ([], some rest)
    else
      let r := splitFirst sep rest
      (c :: r.1, r.2)

/-- Characters allowed in a URL scheme after the leading letter, as in
`urllib.parse` (`scheme_chars`). -/
def isSchemeChar (c : Char) : Bool := c.isAlphanum || c = '+' || c = '-' || c = '.'

/-- Result of `urllib.parse.urlparse`: the five components used by the
repository (`scheme`, `netloc`, `path`, `query`, `fragment`). -/
structure UrlParts where
  scheme : String
  netloc : String
  path : String
  query : String
  fragment : String
deriving DecidableEq

/-- Model of `urllib.parse.urlparse` at the character-list level: split the
fragment at the first `#`; recognise a scheme when a `:` is preceded by a
nonempty run of scheme characters starting with a letter (scheme lowercased);
read a netloc after a leading `//` up to the next `/`, `?` or `#`; split the
query at the first `?`.  The model keeps path parameters (`;`) inside `path`
and decodes nothing, which matches the inputs the repository feeds it. -/
def urlparseChars (l : List Char) : UrlParts :=
  let hf := splitFirst '#' l
  let fragment := hf.2.getD []
  let sr :=
    match splitFirst ':' hf.1 with
    | (pre, some post) =>
      if !pre.isEmpty && (match pre with | c :: _ => c.isAlpha | [] => false)
          && pre.all isSchemeChar then
        (pre.map Char.toLower, post)
      else ([], hf.1)
    | (_, none) => ([], hf.1)
  let nr :=
    match sr.2 with
    | '/' :: '/' :: r =>
      (r.takeWhile (fun c => c ≠ '/' && c ≠ '?' && c ≠ '#'),
       r.dropWhile (fun c => c ≠ '/' && c ≠ '?' && c ≠ '#'))
    | other => ([], other)
  let pq := splitFirst '?' nr.2
  ⟨String.mk sr.1, String.mk nr.1, String.mk pq.1, String.mk (pq.2.getD []),
   String.mk fragment⟩

/-- Model of `urllib.parse.urlparse` on strings. -/
def urlparse (s : String) : UrlParts := urlparseChars s.toList

/-- Value of a hexadecimal digit character, as accepted by `urllib.parse.unquote`. -/
def hexDigit (c : Char) : Option Nat :=
  if '0' ≤ c ∧ c ≤ '9' then some (c.toNat - '0'.toNat)
  else if 'a' ≤ c ∧ c ≤ 'f' then some (c.toNat - 'a'.toNat + 10)
  else if 'A' ≤ c ∧ c ≤ 'F' then some (c.toNat - 'A'.toNat + 10)
  else none

/-- Model of `urllib.parse.unquote`: replace each `%` followed by two hex
digits by the character with that code, leaving malformed escapes untouched
(byte values are taken at code-point granularity, which agrees with Python on
single-byte escapes). -/
def unquoteChars : List Char → List Char
  | '%' :: h1 :: h2 :: rest =>
    match hexDigit h1, hexDigit h2 with
    | some a, some b => Char.ofNat (16 * a + b) :: unquoteChars rest
    | _, _ => '%' :: unquoteChars (h1 :: h2 :: rest)
  | c :: rest => c :: unquoteChars rest
  | [] => []

/-- Characters of the regular expression class in
`re.sub(r'[<>:"|?*]', '_', path)` (website_scraper.py line 129). -/
def invalidFileChar (c : Char) : Bool :=
  c = '<' || c = '>' || c = ':' || c = '"' || c = '|' || c = '?' || c = '*'

/-- Stage of `sanitize_filename`: `if not path: path = "index"`
(website_scraper.py lines 125-126). -/
def defaultIndex (l : List Char) : List Char :=
  if l = [] then "index".toList else l

/-- Stage of `sanitize_filename`: `re.sub(r'[<>:"|?*]', '_', path)`
(website_scraper.py line 129). -/
def replaceInvalid (l : List Char) : List Char :=
  l.map (fun c => if invalidFileChar c then '_' else c)

/-- Stage of `sanitize_filename`: `path.replace('/', '_')`
(website_scraper.py line 130). -/
def replaceSlash (l : List Char) : List Char :=
  l.map (fun c => if c = '/' then '_' else c)

/-- Stage of `sanitize_filename`: `if len(path) > 200: path = path[:200]`
(website_scraper.py lines 134-135). -/
def truncate200 (l : List Char) : List Char :=
  if 200 < l.length then l.take 200 else l

/-- Stage of `sanitize_filename`: `if not path.endswith('.html'): path += '.html'`
(website_scraper.py lines 138-139). -/
def addHtmlExt (l : List Char) : List Char :=
  if (".html".toList).isSuffixOf l then l else l ++ ".html".toList

/-- Model of `WebsiteScraper.sanitize_filename` (website_scraper.py lines
120-141) on the characters of `urlparse(url).path`. -/
def sanitizeChars (pathChars : List Char) : List Char :=
  addHtmlExt (truncate200 (unquoteChars
    (replaceSlash (replaceInvalid (defaultIndex (stripChar '/' pathChars))))))

/-- Model of `WebsiteScraper.sanitize_filename` (website_scraper.py lines
120-141): the filename is a pure function of the URL string. -/
def sanitize_filename (url : String) : String :=
  String.mk (sanitizeChars (urlparse url).path.toList)

/-- Second definition for the refinement claim C4, following the
specification's words (§4.3): strip leading/trailing slashes; substitute
`index` if empty; replace each of `< > : " | ? *` and literal `/` by `_` in a
single pass; percent-decode; truncate to 200 characters; append `.html` if
not already present as the suffix. -/
def sanitizeSpecChars (pathChars : List Char) : List Char :=
  addHtmlExt ((unquoteChars
    ((defaultIndex (stripChar '/' pathChars)).map
      (fun c => if invalidFileChar c || c = '/' then '_' else c))).take 200)

/-- Specification-side filename sanitization on a URL string (claim C4). -/
def sanitizeSpec (url : String) : String :=
  String.mk (sanitizeSpecChars (urlparse url).path.toList)

theorem replaceSlash_replaceInvalid (l : List Char) :
    replaceSlash (replaceInvalid l) =
      l.map (fun c => if invalidFileChar c || c = '/' then '_' else c) := by
  unfold replaceSlash replaceInvalid
  rw [List.map_map]
  apply List.map_congr_left
  intro c _
  by_cases h : invalidFileChar c = true
  · simp [Function.comp, h]
  · by_cases h2 : c = '/'
    · simp [Function.comp, h, h2]
    · simp [Function.comp, h, h2]

theorem truncate200_eq_take (l : List Char) : truncate200 l = l.take 200 := by
  unfold truncate200
  split
  · rfl
  · rename_i h
    exact (List.take_of_length_le (Nat.le_of_not_lt h)).symm

theorem sanitizeChars_eq_spec (l : List Char) :
    sanitizeChars l = sanitizeSpecChars l := by
  unfold sanitizeChars sanitizeSpecChars
  rw [replaceSlash_replaceInvalid, truncate200_eq_take]

/-- C4: for every URL, `sanitize_filename` computes exactly the
specification's pipeline — path component, strip slashes, default `index`,
replace `< > : " | ? *` and `/` by `_`, percent-decode, truncate to 200
characters, append `.html` if absent — and it is a pure function of the URL,
so sanitizing the same URL twice yields the same filename. -/
theorem sanitize_filename_matches_spec (url : String) :
    sanitize_filename url = sanitizeSpec url ∧
      sanitize_filename url = sanitize_filename url := by
  constructor
  · unfold sanitize_filename sanitizeSpec
    rw [sanitizeChars_eq_spec]
  · rfl

example : sanitize_filename "https://example.com/a/b" = "a_b.html" := by decide
example : sanitize_filename "https://example.com" = "index.html" := by decide
example : sanitize_filename "https://example.com/x%20y" = "x y.html" := by decide

/-- Directory part of a path for relative URL resolution, as in
`urllib.parse.urljoin`: everything up to and including the last `/`, or `/`
when the path has no slash. -/
def dirOfPath (l : List Char) : List Char :=
  if '/' ∈ l then (l.reverse.dropWhile (· ≠ '/')).reverse else "/".toList

/-- Model of `urllib.parse.urljoin` for the reference shapes the repository
produces: empty reference keeps the base; a reference with a scheme is
absolute; `//`-references take the base scheme; `/`-rooted references take the
base scheme and netloc; other references are merged onto the directory of the
base path.  Dot-segment normalization is not modelled (the repository never
relies on it). -/
def urljoin (base url : String) : String :=
  let b := urlparse base
  if url = "" then base
  else if (urlparse url).scheme ≠ "" then url
  else if ("//".toList).isPrefixOf url.toList then b.scheme ++ ":" ++ url
  else if ("/".toList).isPrefixOf url.toList then b.scheme ++ "://" ++ b.netloc ++ url
  else b.scheme ++ "://" ++ b.netloc ++ String.mk (dirOfPath b.path.toList) ++ url

/-- Anchor tag as seen by `_fix_links`: `soup.find_all('a', href=True)`
yields tags that all carry an `href`; `target` and `rel` are the attributes
the function may set (website_scraper.py lines 200-212). -/
structure ATag where
  href : String
  target : Option String
  rel : Option String
deriving DecidableEq

/-- Model of the per-anchor body of `WebsiteScraper._fix_links`
(website_scraper.py lines 200-212): resolve the href against the current
page URL; a same-netloc result is rewritten to `pages/<sanitized>`; any other
result keeps its href and gains `target="_blank"` and
`rel="noopener noreferrer"`. -/
def fixLinkTag (base current : String) (t : ATag) : ATag :=
  let absolute := urljoin current t.href
  if (urlparse absolute).netloc = (urlparse base).netloc then
    { t with href := "pages/" ++ sanitize_filename absolute }
  else
    { t with target := some "_blank", rel := some "noopener noreferrer" }

/-- Model of `WebsiteScraper._fix_links` over the page's anchor tags
(website_scraper.py lines 195-212; the `<link>` and `<script>` loops of lines
216-231 mutate nothing and are omitted). -/
def fixLinks (base current : String) (tags : List ATag) : List ATag :=
  tags.map (fixLinkTag base current)

/-- C5 counterexample: the code rewrites a same-domain href to
`pages/<sanitized filename>`, which is not equal to the sanitized filename
itself, so the claim's "relative path equal to the sanitized filename of that
absolute URL" fails at `<a href="/b">` on `https://example.com/a`. -/
theorem link_rewrite_not_bare_filename :
    (fixLinkTag "https://example.com" "https://example.com/a"
        ⟨"/b", none, none⟩).href = "pages/b.html" ∧
    sanitize_filename (urljoin "https://example.com/a" "/b") = "b.html" ∧
    ("pages/b.html" : String) ≠ "b.html" := by
  refine ⟨by decide, by decide, by decide⟩

/-- C5 as amended: a same-domain anchor is rewritten to the sanitized
filename of its absolute URL prefixed with the `pages/` directory; a
cross-domain anchor keeps its href and is annotated with `target="_blank"`
and `rel="noopener noreferrer"`; `_fix_links` applies this to every anchor. -/
theorem fix_links_rewrite_spec (base current : String) (t : ATag) :
    ((urlparse (urljoin current t.href)).netloc = (urlparse base).netloc →
      fixLinkTag base current t =
        { t with href := "pages/" ++ sanitize_filename (urljoin current t.href) }) ∧
    ((urlparse (urljoin current t.href)).netloc ≠ (urlparse base).netloc →
      fixLinkTag base current t =
        { t with target := some "_blank", rel := some "noopener noreferrer" }) ∧
    ∀ tags : List ATag, fixLinks base current tags = tags.map (fixLinkTag base current) := by
  refine ⟨fun h => ?_, fun h => ?_, fun tags => rfl⟩
  · unfold fixLinkTag
    rw [if_pos h]
  · unfold fixLinkTag
    rw [if_neg h]

/-- C5 witness: the amended rewrite theorem applied to the concrete
same-domain anchor `<a href="/b">` on page `https://example.com/a`. -/
theorem fix_links_rewrite_spec_witness :
    ((urlparse (urljoin "https://example.com/a" "/b")).netloc =
        (urlparse "https://example.com").netloc) ∧
    fixLinkTag "https://example.com" "https://example.com/a" ⟨"/b", none, none⟩ =
      { (⟨"/b", none, none⟩ : ATag) with
          href := "pages/" ++ sanitize_filename (urljoin "https://example.com/a" "/b") } :=
  ⟨by decide,
   (fix_links_rewrite_spec "https://example.com" "https://example.com/a"
      ⟨"/b", none, none⟩).1 (by decide)⟩

/-- Model of the domain filter in `WebsiteScraper.get_sitemap_urls`
(website_scraper.py line 87): keep exactly the URLs whose `netloc` equals the
base URL's `netloc`. -/
def filterSitemapUrls (base_url : String) (all_urls : List String) : List String :=
  all_urls.filter (fun url => (urlparse url).netloc == (urlparse base_url).netloc)

/-- C9: the crawl target set contains exactly the discovered URLs whose host
component equals the base URL's host component, and on the concrete set
{example.com/a, example.com/b, other.com/c} with base `https://example.com`
only the two example.com URLs remain. -/
theorem domain_filter_exact (base_url : String) (all_urls : List String) (u : String) :
    (u ∈ filterSitemapUrls base_url all_urls ↔
      u ∈ all_urls ∧ (urlparse u).netloc = (urlparse base_url).netloc) ∧
    filterSitemapUrls "https://example.com"
        ["https://example.com/a", "https://example.com/b", "https://other.com/c"] =
      ["https://example.com/a", "https://example.com/b"] := by
  constructor
  · simp [filterSitemapUrls, List.mem_filter]
  · decide

/-- Model of `app.extract_base_url` (app.py lines 42-45):
`f"{parsed.scheme}://{parsed.netloc}"`. -/
def extract_base_url (url : String) : String :=
  (urlparse url).scheme ++ "://" ++ (urlparse url).netloc

/-- Outcome of the `/api/start` endpoint: either a rejection with an error
message or an accepted run with its base URL. -/
inductive StartResult
  | rejected (message : String)
  | accepted (base_url : String)
deriving DecidableEq

/-- Model of `app.start_scraper` (app.py lines 88-127): reject when a run is
active; strip the submitted URL and reject when empty; otherwise derive the
base URL with `extract_base_url` and start the run.  `urlparse` returns
normally on every ordinary string, so the `except` branch that would report
"Invalid URL" is unreachable for plain text inputs. -/
def start_scraper (is_running : Bool) (url : String) : StartResult :=
  if is_running then .rejected "Scraper is already running"
  else if pyStrip url = "" then .rejected "URL is required"
  else .accepted (extract_base_url (pyStrip url))

/-- C8: evaluation at the failing input `"notaurl"` — the string has neither
scheme nor host, yet `start_scraper` accepts it and starts a run with the
degenerate base URL `"://"` instead of rejecting it. -/
theorem start_scraper_accepts_schemeless :
    start_scraper false "notaurl" = .accepted "://" ∧
    (urlparse "notaurl").scheme = "" ∧ (urlparse "notaurl").netloc = "" := by
  decide

/-- Suffix test on tag names, modelling Python `str.endswith` as used in
`root.tag.endswith('sitemapindex')` / `root.tag.endswith('urlset')`. -/
def tagEndsWith (tag sfx : String) : Bool := sfx.toList.isSuffixOf tag.toList

/-- Parsed sitemap XML as the repository reads it: the root tag string
(`root.tag`, possibly namespace-qualified), the `<sitemap><loc>` texts and
the `<url><loc>` texts found below the root.  The XML parsing primitive is an
out-of-scope collaborator, so the oracle hands over this structure. -/
structure XmlDoc where
  rootTag : String
  sitemapLocs : List String
  urlLocs : List String
deriving DecidableEq

/-- Oracle result of fetching one sitemap URL: `fetchFail` covers a network
error, timeout or an HTTP error status (`raise_for_status`); `ok none` is a
response whose body fails XML parsing; `ok (some xml)` is a parsed body. -/
inductive SitemapFetch
  | fetchFail
  | ok (xml : Option XmlDoc)
deriving DecidableEq

/-- Model of `WebsiteScraper._extract_urls_from_sitemap` (website_scraper.py
lines 92-118).  The source recurses through nested sitemap indexes with no
visited set; `fuel` bounds the recursion depth exactly as the host language's
recursion limit does (the source otherwise recurses forever on a cycle).
Returns the collected page URLs together with the log of sitemap URLs
fetched, one entry per `session.get`. -/
def extractUrlsFromSitemap (env : String → SitemapFetch) :
    Nat → String → List String × List String
  | 0, _ => ([], [])
  | fuel+1, url =>
    match env url with
    | .fetchFail => ([], [url])
    | .ok none => ([], [url])
    | .ok (some xml) =>
      if tagEndsWith xml.rootTag "sitemapindex" then
        xml.sitemapLocs.foldl
          (fun acc loc =>
            let r := extractUrlsFromSitemap env fuel loc
            (acc.1 ++ r.1, acc.2 ++ r.2))
          ([], [url])
      else if tagEndsWith xml.rootTag "urlset" then (xml.urlLocs, [url])
      else ([], [url])

/-- Sitemap reference graph with a two-cycle: sitemap A references B and B
references A, both namespace-qualified sitemap indexes. -/
def cycleEnv : String → SitemapFetch := fun url =>
  if url = "A" then .ok (some ⟨"\x7bns\x7dsitemapindex", ["B"], []⟩)
  else if url = "B" then .ok (some ⟨"\x7bns\x7dsitemapindex", ["A"], []⟩)
  else .fetchFail

/-- C1 counterexample: the full-site variant's recursive resolution has no
visited set, so on the A-B cycle with recursion budget 5 the sitemap A is
fetched three times — "each sitemap URL is fetched at most once" fails. -/
theorem extract_urls_cycle_refetches :
    (extractUrlsFromSitemap cycleEnv 5 "A").2.count "A" = 3 ∧
      ¬ (extractUrlsFromSitemap cycleEnv 5 "A").2.count "A" ≤ 1 := by
  decide

/-- Archival filename of a fetched sitemap (sitemap_scraper.py line 103):
`sitemaps/` plus the last path segment of the URL, or `sitemap.xml` when that
segment is empty. -/
def sitemapSaveName (url : String) : String :=
  let seg := ((urlparse url).path.toList.reverse.takeWhile (· ≠ '/')).reverse
  "sitemaps/" ++ (if seg = [] then "sitemap.xml" else String.mk seg)

/-- Record built by `QuranSitemapScraper.parse_sitemap` (sitemap_scraper.py
lines 113-119): source URL, archival filename, `type` (`None`,
`"sitemapindex"` or `"urlset"`), nested sitemap URLs and page URLs. -/
structure SitemapInfo where
  url : String
  filename : String
  type : Option String
  sitemaps : List String
  urls : List String
deriving DecidableEq

/-- Model of `QuranSitemapScraper.parse_sitemap` (sitemap_scraper.py lines
95-150): a failed fetch or an XML parse failure raises, is caught, and yields
`None`; otherwise the record is built, with `type` left `None` when the root
tag ends in neither `sitemapindex` nor `urlset`.  (The raw body is saved to
disk before parsing; that side effect precedes the parse and is not part of
the returned record.) -/
def parse_sitemap (env : String → SitemapFetch) (url : String) : Option SitemapInfo :=
  match env url with
  | .fetchFail => none
  | .ok none => none
  | .ok (some xml) =>
    if tagEndsWith xml.rootTag "sitemapindex" then
      some ⟨url, sitemapSaveName url, some "sitemapindex", xml.sitemapLocs, []⟩
    else if tagEndsWith xml.rootTag "urlset" then
      some ⟨url, sitemapSaveName url, some "urlset", [], xml.urlLocs⟩
    else
      some ⟨url, sitemapSaveName url, none, [], []⟩

/-- Mutable state of a `QuranSitemapScraper` run: `found` is
`self.found_sitemaps`, `docs` is `self.downloaded_sitemaps`, `fetched` logs
every sitemap URL passed to `parse_sitemap` (one `session.get` each), and
`checks` counts the stop-flag reads. -/
structure SMState where
  found : List String
  docs : List SitemapInfo
  fetched : List String
  checks : Nat
deriving DecidableEq

/-- Initial state of a sitemap-archival run. -/
def initSM : SMState := ⟨[], [], [], 0⟩

/-- Stop-flag value read by `if self.stop_callback and self.stop_callback()`:
`s = none` models `stop_callback=None` (the flag is never consulted);
`s = some k` models a monotone flag that reads true from the `k`-th
consultation onward. -/
def smStopFlag (s : Option Nat) (st : SMState) : Bool :=
  match s with
  | none => false
  | some k => decide (k ≤ st.checks)

/-- State after one stop-flag consultation: the read counter advances exactly
when a callback exists. -/
def smBump (s : Option Nat) (st : SMState) : SMState :=
  match s with
  | none => st
  | some _ => { st with checks := st.checks + 1 }

/-- Model of the download loop of `QuranSitemapScraper.download_all_sitemaps`
(sitemap_scraper.py lines 197-209): for each URL, consult the stop flag
(returning from the whole function when it is set — third component `true`);
skip URLs already in `found_sitemaps`; otherwise add the URL to
`found_sitemaps`, fetch and parse it, and accumulate the children of a
sitemap index into the nested frontier. -/
def downloadLoop (env : String → SitemapFetch) (s : Option Nat) :
    List String → SMState → List String → SMState × List String × Bool
  | [], st, nested => (st, nested, false)
  | url :: rest, st, nested =>
    if smStopFlag s st then (smBump s st, nested, true)
    else if url ∈ (smBump s st).found then downloadLoop env s rest (smBump s st) nested
    else
      let st2 : SMState :=
        { smBump s st with
            found := url :: (smBump s st).found,
            fetched := (smBump s st).fetched ++ [url] }
      match parse_sitemap env url with
      | none => downloadLoop env s rest st2 nested
      | some info =>
        if info.type = some "sitemapindex" then
          downloadLoop env s rest { st2 with docs := st2.docs ++ [info] }
            (nested ++ info.sitemaps)
        else downloadLoop env s rest { st2 with docs := st2.docs ++ [info] } nested

/-- Outcome of `download_all_sitemaps`: the recursion ended with an empty
frontier (`finished`), returned on the stop flag (`stoppedEarly`), or ran out
of modelled call-stack budget (`fuelOut` — a case the source would reach only
by exhausting the recursion limit). -/
inductive DLOutcome
  | finished
  | stoppedEarly
  | fuelOut
deriving DecidableEq

/-- Model of `QuranSitemapScraper.download_all_sitemaps` (sitemap_scraper.py
lines 183-216): process the current frontier with `downloadLoop`, then
recurse on the nested sitemaps not yet in `found_sitemaps` (Python set
difference is modelled by `dedup` + membership filter). -/
def download_all_sitemaps (env : String → SitemapFetch) (s : Option Nat) :
    Nat → List String → SMState → SMState × DLOutcome
  | 0, _, st => (st, .fuelOut)
  | fuel+1, urls, st =>
    let r := downloadLoop env s urls st []
    if r.2.2 then (r.1, .stoppedEarly)
    else
      let remaining := (r.2.1.dedup).filter (fun u => decide (u ∉ r.1.found))
      if remaining = [] then (r.1, .finished)
      else download_all_sitemaps env s fuel remaining r.1

/-- Summary report of the sitemap-archival variant
(`QuranSitemapScraper.generate_report`, sitemap_scraper.py lines 218-226). -/
structure SitemapReport where
  total_sitemaps : Nat
  sitemap_indexes : Nat
  urlsets : Nat
  total_urls : Nat
deriving DecidableEq

/-- Model of `QuranSitemapScraper.generate_report` (sitemap_scraper.py lines
218-226) over the downloaded-sitemaps list. -/
def sm_generate_report (docs : List SitemapInfo) : SitemapReport :=
  ⟨docs.length,
   (docs.filter (fun d => decide (d.type = some "sitemapindex"))).length,
   (docs.filter (fun d => decide (d.type = some "urlset"))).length,
   (docs.map (fun d => d.urls.length)).sum⟩

/-- Environment for the C6 counterexample: one URL answers 200 with a parsed
XML body whose root tag is `opml` — neither a sitemap index nor a urlset. -/
def otherRootEnv : String → SitemapFetch := fun url =>
  if url = "https://e.com/foo.xml" then .ok (some ⟨"opml", [], []⟩)
  else .fetchFail

/-- C6 counterexample: a fetched document whose root element is neither
`sitemapindex` nor `urlset` is not recorded as a failure — `parse_sitemap`
returns a record with `type = None`, the record lands in
`downloaded_sitemaps`, and the report counts it in `total_sitemaps` (while
both per-kind counts stay 0), contradicting "yielding no SitemapDocument in
the report". -/
theorem unknown_root_recorded_as_document :
    parse_sitemap otherRootEnv "https://e.com/foo.xml" =
      some ⟨"https://e.com/foo.xml", "sitemaps/foo.xml", none, [], []⟩ ∧
    (download_all_sitemaps otherRootEnv none 2 ["https://e.com/foo.xml"] initSM).1.docs =
      [⟨"https://e.com/foo.xml", "sitemaps/foo.xml", none, [], []⟩] ∧
    sm_generate_report
        (download_all_sitemaps otherRootEnv none 2 ["https://e.com/foo.xml"] initSM).1.docs =
      ⟨1, 0, 0, 0⟩ := by
  decide

theorem smBump_found (s : Option Nat) (st : SMState) :
    (smBump s st).found = st.found := by
  cases s <;> rfl

theorem smBump_fetched (s : Option Nat) (st : SMState) :
    (smBump s st).fetched = st.fetched := by
  cases s <;> rfl

/-- Finite-universe bound for a sitemap environment: every child URL a
sitemap index can mention lies in `U`. -/
def ChildrenIn (U : List String) (env : String → SitemapFetch) : Prop :=
  ∀ u xml, env u = .ok (some xml) → ∀ x ∈ xml.sitemapLocs, x ∈ U

theorem parse_sitemap_children (env : String → SitemapFetch) (U : List String)
    (hCB : ChildrenIn U env) (url : String) (info : SitemapInfo)
    (hp : parse_sitemap env url = some info) : ∀ x ∈ info.sitemaps, x ∈ U := by
  rcases he : env url with _ | oxml
  · simp [parse_sitemap, he] at hp
  · rcases oxml with _ | xml
    · simp [parse_sitemap, he] at hp
    · simp only [parse_sitemap, he] at hp
      split_ifs at hp
      · cases hp
        exact fun x hx => hCB url xml he x hx
      · cases hp
        intro x hx
        simp at hx
      · cases hp
        intro x hx
        simp at hx

theorem downloadLoop_props (env : String → SitemapFetch) (s : Option Nat)
    (urls : List String) :
    ∀ (st : SMState) (nested : List String),
      (∀ u ∈ st.found, u ∈ (downloadLoop env s urls st nested).1.found) ∧
      ((downloadLoop env s urls st nested).2.2 = false →
        ∀ u ∈ urls, u ∈ (downloadLoop env s urls st nested).1.found) ∧
      (st.fetched.Nodup → (∀ u ∈ st.fetched, u ∈ st.found) →
        (downloadLoop env s urls st nested).1.fetched.Nodup ∧
          ∀ u ∈ (downloadLoop env s urls st nested).1.fetched,
            u ∈ (downloadLoop env s urls st nested).1.found) ∧
      ((downloadLoop env s urls st nested).2.1 = nested ∨
        ∃ u, u ∈ urls ∧ u ∉ st.found) := by
  induction urls with
  | nil =>
    intro st nested
    refine ⟨fun u hu => hu, fun _ u hu => absurd hu (List.not_mem_nil u), ?_, Or.inl rfl⟩
    exact fun h1 h2 => ⟨h1, h2⟩
  | cons url rest ih =>
    intro st nested
    by_cases hstop : smStopFlag s st = true
    · have hd : downloadLoop env s (url :: rest) st nested = (smBump s st, nested, true) := by
        simp [downloadLoop, hstop]
      rw [hd]
      refine ⟨?_, ?_, ?_, Or.inl rfl⟩
      · intro u hu
        simpa [smBump_found] using hu
      · intro hfalse
        simp at hfalse
      · intro h1 h2
        refine ⟨by simpa [smBump_fetched] using h1, ?_⟩
        intro u hu
        rw [smBump_found]
        exact h2 u (by simpa [smBump_fetched] using hu)
    · by_cases hmem : url ∈ st.found
      · have hd : downloadLoop env s (url :: rest) st nested =
            downloadLoop env s rest (smBump s st) nested := by
          simp [downloadLoop, hstop, smBump_found, hmem]
        rw [hd]
        obtain ⟨m, b, i, w⟩ := ih (smBump s st) nested
        refine ⟨?_, ?_, ?_, ?_⟩
        · intro u hu
          exact m u (by simpa [smBump_found] using hu)
        · intro hf u hu
          rcases List.mem_cons.mp hu with h | h
          · subst h
            exact m u (by simpa [smBump_found] using hmem)
          · exact b hf u h
        · intro h1 h2
          apply i
          · simpa [smBump_fetched] using h1
          · intro u hu
            rw [smBump_found]
            exact h2 u (by simpa [smBump_fetched] using hu)
        · rcases w with h | ⟨u, hu1, hu2⟩
          · exact Or.inl h
          · exact Or.inr ⟨u, List.mem_cons_of_mem _ hu1, by simpa [smBump_found] using hu2⟩
      · rcases hp : parse_sitemap env url with _ | info
        · have hd : downloadLoop env s (url :: rest) st nested =
              downloadLoop env s rest
                { smBump s st with
                    found := url :: (smBump s st).found,
                    fetched := (smBump s st).fetched ++ [url] } nested := by
            simp [downloadLoop, hstop, smBump_found, hmem, hp]
          rw [hd]
          obtain ⟨m, b, i, w⟩ := ih _ nested
          refine ⟨?_, ?_, ?_, ?_⟩
          · intro u hu
            exact m u (by simp [smBump_found]; exact Or.inr hu)
          · intro hf u hu
            rcases List.mem_cons.mp hu with h | h
            · subst h
              exact m u (by simp [smBump_found])
            · exact b hf u h
          · intro h1 h2
            apply i
            · simp [smBump_fetched, List.nodup_append, h1]
              intro hc
              exact hmem (h2 url hc)
            · intro u hu
              simp [smBump_fetched, smBump_found] at hu ⊢
              rcases hu with h | h
              · exact Or.inr (h2 u h)
              · exact Or.inl h
          · exact Or.inr ⟨url, List.mem_cons_self url rest, hmem⟩
        · by_cases hidx : info.type = some "sitemapindex"
          · have hd : downloadLoop env s (url :: rest) st nested =
                downloadLoop env s rest
                  { smBump s st with
                      found := url :: (smBump s st).found,
                      fetched := (smBump s st).fetched ++ [url],
                      docs := (smBump s st).docs ++ [info] }
                  (nested ++ info.sitemaps) := by
              simp [downloadLoop, hstop, smBump_found, hmem, hp, hidx]
            rw [hd]
            obtain ⟨m, b, i, w⟩ := ih _ (nested ++ info.sitemaps)
            refine ⟨?_, ?_, ?_, ?_⟩
            · intro u hu
              exact m u (by simp [smBump_found]; exact Or.inr hu)
            · intro hf u hu
              rcases List.mem_cons.mp hu with h | h
              · subst h
                exact m u (by simp [smBump_found])
              · exact b hf u h
            · intro h1 h2
              apply i
              · simp [smBump_fetched, List.nodup_append, h1]
                intro hc
                exact hmem (h2 url hc)
              · intro u hu
                simp [smBump_fetched, smBump_found] at hu ⊢
                rcases hu with h | h
                · exact Or.inr (h2 u h)
                · exact Or.inl h
            · exact Or.inr ⟨url, List.mem_cons_self url rest, hmem⟩
          · have hd : downloadLoop env s (url :: rest) st nested =
                downloadLoop env s rest
                  { smBump s st with
                      found := url :: (smBump s st).found,
                      fetched := (smBump s st).fetched ++ [url],
                      docs := (smBump s st).docs ++ [info] } nested := by
              simp [downloadLoop, hstop, smBump_found, hmem, hp, hidx]
            rw [hd]
            obtain ⟨m, b, i, w⟩ := ih _ nested
            refine ⟨?_, ?_, ?_, ?_⟩
            · intro u hu
              exact m u (by simp [smBump_found]; exact Or.inr hu)
            · intro hf u hu
              rcases List.mem_cons.mp hu with h | h
              · subst h
                exact m u (by simp [smBump_found])
              · exact b hf u h
            · intro h1 h2
              apply i
              · simp [smBump_fetched, List.nodup_append, h1]
                intro hc
                exact hmem (h2 url hc)
              · intro u hu
                simp [smBump_fetched, smBump_found] at hu ⊢
                rcases hu with h | h
                · exact Or.inr (h2 u h)
                · exact Or.inl h
            · exact Or.inr ⟨url, List.mem_cons_self url rest, hmem⟩

theorem downloadLoop_children (env : String → SitemapFetch) (s : Option Nat)
    (U : List String) (hCB : ChildrenIn U env) (urls : List String) :
    ∀ (st : SMState) (nested : List String),
      ∀ x ∈ (downloadLoop env s urls st nested).2.1, x ∈ nested ∨ x ∈ U := by
  induction urls with
  | nil =>
    intro st nested x hx
    exact Or.inl (by simpa [downloadLoop] using hx)
  | cons url rest ih =>
    intro st nested x hx
    by_cases hstop : smStopFlag s st = true
    · have hd : downloadLoop env s (url :: rest) st nested = (smBump s st, nested, true) := by
        simp [downloadLoop, hstop]
      rw [hd] at hx
      exact Or.inl hx
    · by_cases hmem : url ∈ st.found
      · have hd : downloadLoop env s (url :: rest) st nested =
            downloadLoop env s rest (smBump s st) nested := by
          simp [downloadLoop, hstop, smBump_found, hmem]
        rw [hd] at hx
        exact ih _ nested x hx
      · rcases hp : parse_sitemap env url with _ | info
        · have hd : downloadLoop env s (url :: rest) st nested =
              downloadLoop env s rest
                { smBump s st with
                    found := url :: (smBump s st).found,
                    fetched := (smBump s st).fetched ++ [url] } nested := by
            simp [downloadLoop, hstop, smBump_found, hmem, hp]
          rw [hd] at hx
          exact ih _ nested x hx
        · by_cases hidx : info.type = some "sitemapindex"
          · have hd : downloadLoop env s (url :: rest) st nested =
                downloadLoop env s rest
                  { smBump s st with
                      found := url :: (smBump s st).found,
                      fetched := (smBump s st).fetched ++ [url],
                      docs := (smBump s st).docs ++ [info] }
                  (nested ++ info.sitemaps) := by
              simp [downloadLoop, hstop, smBump_found, hmem, hp, hidx]
            rw [hd] at hx
            rcases ih _ (nested ++ info.sitemaps) x hx with h | h
            · rcases List.mem_append.mp h with h2 | h2
              · exact Or.inl h2
              · exact Or.inr (parse_sitemap_children env U hCB url info hp x h2)
            · exact Or.inr h
          · have hd : downloadLoop env s (url :: rest) st nested =
                downloadLoop env s rest
                  { smBump s st with
                      found := url :: (smBump s st).found,
                      fetched := (smBump s st).fetched ++ [url],
                      docs := (smBump s st).docs ++ [info] } nested := by
              simp [downloadLoop, hstop, smBump_found, hmem, hp, hidx]
            rw [hd] at hx
            exact ih _ nested x hx

/-- Number of universe URLs not yet in `found_sitemaps` — the decreasing
measure of the recursive resolution. -/
def smMeasure (U : List String) (st : SMState) : Nat :=
  (U.filter (fun u => decide (u ∉ st.found))).length

theorem smMeasure_lt (U : List String) (st st' : SMState)
    (hmono : ∀ u ∈ st.found, u ∈ st'.found) (w : String)
    (hwU : w ∈ U) (hw1 : w ∉ st.found) (hw2 : w ∈ st'.found) :
    smMeasure U st' < smMeasure U st := by
  have hsub : (U.filter (fun u => decide (u ∉ st'.found))).Sublist
      (U.filter (fun u => decide (u ∉ st.found))) := by
    apply List.monotone_filter_right
    intro a ha
    simp only [decide_eq_true_eq] at ha ⊢
    exact fun hm => ha (hmono a hm)
  rcases Nat.lt_or_ge (smMeasure U st') (smMeasure U st) with h | h
  · exact h
  · exfalso
    have hlen : (U.filter (fun u => decide (u ∉ st'.found))).length =
        (U.filter (fun u => decide (u ∉ st.found))).length :=
      Nat.le_antisymm hsub.length_le h
    have heq := hsub.eq_of_length hlen
    have hwin : w ∈ U.filter (fun u => decide (u ∉ st.found)) := by
      simp [List.mem_filter, hwU, hw1]
    rw [← heq] at hwin
    have hw3 := (List.mem_filter.mp hwin).2
    simp only [decide_eq_true_eq] at hw3
    exact hw3 hw2

theorem download_all_fetched_nodup (env : String → SitemapFetch) (s : Option Nat) :
    ∀ (fuel : Nat) (urls : List String) (st : SMState),
      st.fetched.Nodup → (∀ u ∈ st.fetched, u ∈ st.found) →
      (download_all_sitemaps env s fuel urls st).1.fetched.Nodup ∧
        ∀ u ∈ (download_all_sitemaps env s fuel urls st).1.fetched,
          u ∈ (download_all_sitemaps env s fuel urls st).1.found := by
  intro fuel
  induction fuel with
  | zero =>
    intro urls st h1 h2
    exact ⟨by simpa [download_all_sitemaps] using h1,
           by simpa [download_all_sitemaps] using h2⟩
  | succ n ihn =>
    intro urls st h1 h2
    obtain ⟨_, _, i, _⟩ := downloadLoop_props env s urls st []
    obtain ⟨i1, i2⟩ := i h1 h2
    simp only [download_all_sitemaps]
    split
    · exact ⟨i1, i2⟩
    · split
      · exact ⟨i1, i2⟩
      · exact ihn _ _ i1 i2

theorem download_all_completes (env : String → SitemapFetch) (s : Option Nat)
    (U : List String) (hCB : ChildrenIn U env) :
    ∀ (fuel : Nat) (urls : List String) (st : SMState),
      (∀ u ∈ urls, u ∈ U) → smMeasure U st < fuel →
      (download_all_sitemaps env s fuel urls st).2 ≠ .fuelOut := by
  intro fuel
  induction fuel with
  | zero =>
    intro urls st hU hm
    exact absurd hm (Nat.not_lt_zero _)
  | succ n ihn =>
    intro urls st hU hm
    obtain ⟨m, b, _, w⟩ := downloadLoop_props env s urls st []
    simp only [download_all_sitemaps]
    split
    · simp
    · next hab =>
      split
      · simp
      · next hre =>
        apply ihn
        · intro u hu
          have hu2 := List.mem_dedup.mp (List.mem_filter.mp hu).1
          rcases downloadLoop_children env s U hCB urls st [] u hu2 with h | h
          · exact absurd h (List.not_mem_nil u)
          · exact h
        · rcases w with hsame | ⟨u, hu1, hu2⟩
          · exfalso
            apply hre
            rw [hsame]
            rfl
          · have hfalse : (downloadLoop env s urls st []).2.2 = false := by
              simpa using hab
            have hlt : smMeasure U (downloadLoop env s urls st []).1 < smMeasure U st :=
              smMeasure_lt U st _ m u (hU u hu1) hu2 (b hfalse u hu1)
            exact Nat.lt_of_lt_of_le hlt (Nat.lt_succ_iff.mp hm)

/-- C1 as amended: the sitemap-archival variant's recursive resolution
(`download_all_sitemaps`) terminates on every finite sitemap reference graph
— cyclic graphs included — with call depth bounded by the universe size, and
its `found_sitemaps` visited set guarantees that each sitemap URL is fetched
at most once across the whole resolution; the full-site variant's
`_extract_urls_from_sitemap` has no visited set and refetches cyclic
references (see its counterexample). -/
theorem sitemap_resolution_visited_set (env : String → SitemapFetch) (s : Option Nat)
    (U : List String) (urls : List String) (hCB : ChildrenIn U env)
    (hU : ∀ u ∈ urls, u ∈ U) :
    (download_all_sitemaps env s (U.length + 1) urls initSM).2 ≠ .fuelOut ∧
      (download_all_sitemaps env s (U.length + 1) urls initSM).1.fetched.Nodup := by
  constructor
  · apply download_all_completes env s U hCB (U.length + 1) urls initSM hU
    exact Nat.lt_succ_of_le (List.length_filter_le _ U)
  · exact (download_all_fetched_nodup env s (U.length + 1) urls initSM
      (by simp [initSM]) (by simp [initSM])).1

/-- C1 witness: the amended theorem applied to the concrete cyclic graph
A ↔ B with no stop callback; the run finishes and fetches A and B once each. -/
theorem sitemap_resolution_visited_set_witness :
    ChildrenIn ["A", "B"] cycleEnv ∧ (∀ u ∈ ["A"], u ∈ ["A", "B"]) ∧
    ((download_all_sitemaps cycleEnv none (["A", "B"].length + 1) ["A"] initSM).2
        ≠ .fuelOut ∧
      (download_all_sitemaps cycleEnv none (["A", "B"].length + 1) ["A"]
        initSM).1.fetched.Nodup) ∧
    (download_all_sitemaps cycleEnv none (["A", "B"].length + 1) ["A"]
        initSM).1.fetched = ["A", "B"] := by
  have hCB : ChildrenIn ["A", "B"] cycleEnv := by
    intro u xml h x hx
    unfold cycleEnv at h
    split_ifs at h
    · cases h
      simp at hx
      simp [hx]
    · cases h
      simp at hx
      simp [hx]
  exact ⟨hCB, by decide,
    sitemap_resolution_visited_set cycleEnv none ["A", "B"] ["A"] hCB (by decide),
    by decide⟩

theorem downloadLoop_none_no_abort (env : String → SitemapFetch) (urls : List String) :
    ∀ (st : SMState) (nested : List String),
      (downloadLoop env none urls st nested).2.2 = false := by
  induction urls with
  | nil =>
    intro st nested
    simp [downloadLoop]
  | cons url rest ih =>
    intro st nested
    have hstop : smStopFlag none st = false := rfl
    by_cases hmem : url ∈ st.found
    · have hd : downloadLoop env none (url :: rest) st nested =
          downloadLoop env none rest (smBump none st) nested := by
        simp [downloadLoop, hstop, smBump_found, hmem]
      rw [hd]
      exact ih _ nested
    · rcases hp : parse_sitemap env url with _ | info
      · have hd : downloadLoop env none (url :: rest) st nested =
            downloadLoop env none rest
              { smBump none st with
                  found := url :: (smBump none st).found,
                  fetched := (smBump none st).fetched ++ [url] } nested := by
          simp [downloadLoop, hstop, smBump_found, hmem, hp]
        rw [hd]
        exact ih _ nested
      · by_cases hidx : info.type = some "sitemapindex"
        · have hd : downloadLoop env none (url :: rest) st nested =
              downloadLoop env none rest
                { smBump none st with
                    found := url :: (smBump none st).found,
                    fetched := (smBump none st).fetched ++ [url],
                    docs := (smBump none st).docs ++ [info] }
                (nested ++ info.sitemaps) := by
            simp [downloadLoop, hstop, smBump_found, hmem, hp, hidx]
          rw [hd]
          exact ih _ _
        · have hd : downloadLoop env none (url :: rest) st nested =
              downloadLoop env none rest
                { smBump none st with
                    found := url :: (smBump none st).found,
                    fetched := (smBump none st).fetched ++ [url],
                    docs := (smBump none st).docs ++ [info] } nested := by
            simp [downloadLoop, hstop, smBump_found, hmem, hp, hidx]
          rw [hd]
          exact ih _ nested

/-- C6 as amended: a failed fetch (network error, timeout or HTTP error
status) or an XML parse failure yields no `SitemapDocument` — `parse_sitemap`
returns `None` and appends nothing — while a successfully fetched document
whose root is neither `sitemapindex` nor `urlset` IS recorded, as a document
with `type = None`; in both cases the resolution continues: with no stop
callback the download loop never aborts and every frontier URL still ends up
in `found_sitemaps`, whatever failures the environment returns. -/
theorem sitemap_failure_isolation (env : String → SitemapFetch) (url : String) :
    (env url = .fetchFail → parse_sitemap env url = none) ∧
    (env url = .ok none → parse_sitemap env url = none) ∧
    (∀ xml, env url = .ok (some xml) →
      tagEndsWith xml.rootTag "sitemapindex" = false →
      tagEndsWith xml.rootTag "urlset" = false →
      parse_sitemap env url = some ⟨url, sitemapSaveName url, none, [], []⟩) ∧
    (∀ urls st nested, (downloadLoop env none urls st nested).2.2 = false) ∧
    (∀ urls st nested, ∀ u ∈ urls,
      u ∈ (downloadLoop env none urls st nested).1.found) := by
  refine ⟨?_, ?_, ?_, fun urls st nested => downloadLoop_none_no_abort env urls st nested, ?_⟩
  · intro he
    simp [parse_sitemap, he]
  · intro he
    simp [parse_sitemap, he]
  · intro xml he h1 h2
    simp [parse_sitemap, he, h1, h2]
  · intro urls st nested u hu
    obtain ⟨_, b, _, _⟩ := downloadLoop_props env none urls st nested
    exact b (downloadLoop_none_no_abort env urls st nested) u hu

/-- C6 witness: the amended theorem applied at the environment whose one URL
answers with an `opml` root — the fetch is not `fetchFail`, the root matches
neither recognised tag, and the malformed-root document is the one recorded. -/
theorem sitemap_failure_isolation_witness :
    (∀ xml, otherRootEnv "https://e.com/foo.xml" = .ok (some xml) →
        tagEndsWith xml.rootTag "sitemapindex" = false →
        tagEndsWith xml.rootTag "urlset" = false →
        parse_sitemap otherRootEnv "https://e.com/foo.xml" =
          some ⟨"https://e.com/foo.xml", sitemapSaveName "https://e.com/foo.xml",
            none, [], []⟩) ∧
    (otherRootEnv "bad" = .fetchFail → parse_sitemap otherRootEnv "bad" = none) ∧
    parse_sitemap otherRootEnv "bad" = none :=
  ⟨(sitemap_failure_isolation otherRootEnv "https://e.com/foo.xml").2.2.1,
   (sitemap_failure_isolation otherRootEnv "bad").1,
   (sitemap_failure_isolation otherRootEnv "bad").1 (by decide)⟩

/-- Probe environment for sitemap discovery: `head` is the status of a HEAD
request (`none` = request raised), `get` is the content type header and body
text of a GET request (`none` = request raised). -/
structure ProbeEnv where
  head : String → Option Nat
  get : String → Option (String × String)

/-- Fixed ordered list of well-known sitemap paths probed by
`QuranSitemapScraper.check_common_sitemap_locations` (sitemap_scraper.py
lines 47-54). -/
def common_sitemap_paths : List String :=
  ["/sitemap.xml", "/sitemap_index.xml", "/sitemap-index.xml", "/sitemaps.xml",
   "/sitemap1.xml", "/sitemap_1.xml"]

/-- Acceptance test of one probed URL (sitemap_scraper.py lines 61-68): HEAD
must answer 200, then a GET is made and the URL is accepted when the declared
content type starts with `application/xml` or `text/xml`, or the stripped
body starts with an XML declaration. -/
def checkSitemapUrl (env : ProbeEnv) (url : String) : Bool :=
  if env.head url = some 200 then
    match env.get url with
    | some ctbody =>
      ("application/xml".toList.isPrefixOf ctbody.1.toList) ||
      ("text/xml".toList.isPrefixOf ctbody.1.toList) ||
      ("<?xml".toList.isPrefixOf (stripWs ctbody.2.toList))
    | none => false
  else false

/-- Loop of `QuranSitemapScraper.check_common_sitemap_locations`
(sitemap_scraper.py lines 56-73) over a path list. -/
def checkCommonGo (env : ProbeEnv) (base : String) : List String → List String
  | [] => []
  | p :: rest =>
    if checkSitemapUrl env (urljoin base p) then
      urljoin base p :: checkCommonGo env base rest
    else checkCommonGo env base rest

/-- Model of `QuranSitemapScraper.check_common_sitemap_locations`
(sitemap_scraper.py lines 45-73). -/
def check_common_sitemap_locations (env : ProbeEnv) (base : String) : List String :=
  checkCommonGo env base common_sitemap_paths

/-- Paths probed by the full-site variant `WebsiteScraper.get_sitemap_urls`
(website_scraper.py line 63): only three well-known paths. -/
def ws_common_paths : List String :=
  ["/sitemap.xml", "/sitemap_index.xml", "/sitemap-index.xml"]

/-- Loop of the common-location probe in `WebsiteScraper.get_sitemap_urls`
(website_scraper.py lines 64-72): a URL is accepted on a bare HEAD status of
200, with no content inspection at all. -/
def wsCheckCommonGo (head : String → Option Nat) (base : String) :
    List String → List String
  | [] => []
  | p :: rest =>
    if head (urljoin base p) = some 200 then
      urljoin base p :: wsCheckCommonGo head base rest
    else wsCheckCommonGo head base rest

/-- Model of the common-location probe of `WebsiteScraper.get_sitemap_urls`
(website_scraper.py lines 62-72). -/
def ws_check_common_locations (head : String → Option Nat) (base : String) :
    List String :=
  wsCheckCommonGo head base ws_common_paths

/-- C7 counterexample: the full-site resolver probes only three well-known
paths, not six, and accepts `/sitemap.xml` on a bare HEAD 200 even in a world
where the resource's content type is `text/html` and its body is not XML —
no content confirmation is performed, so "accepts a probed URL only after an
existence check plus a content confirmation" fails for this resolver. -/
theorem ws_probe_skips_content_confirmation :
    ws_check_common_locations (fun _ => some 200) "https://e.com" =
      ["https://e.com/sitemap.xml", "https://e.com/sitemap_index.xml",
       "https://e.com/sitemap-index.xml"] ∧
    checkSitemapUrl
        ⟨fun _ => some 200, fun _ => some ("text/html", "hello")⟩
        "https://e.com/sitemap.xml" = false ∧
    ws_common_paths ≠ common_sitemap_paths := by
  decide

theorem wsCheckCommonGo_eq_filter (hd : String → Option Nat) (base : String) :
    ∀ paths : List String,
      wsCheckCommonGo hd base paths =
        (paths.map (fun p => urljoin base p)).filter
          (fun url => decide (hd url = some 200)) := by
  intro paths
  induction paths with
  | nil => rfl
  | cons p rest ih =>
    by_cases h : hd (urljoin base p) = some 200
    · simp [wsCheckCommonGo, h, List.filter_cons, ih]
    · simp [wsCheckCommonGo, h, List.filter_cons, ih]

theorem checkCommonGo_eq_filter (env : ProbeEnv) (base : String) :
    ∀ paths : List String,
      checkCommonGo env base paths =
        (paths.map (fun p => urljoin base p)).filter (checkSitemapUrl env) := by
  intro paths
  induction paths with
  | nil => rfl
  | cons p rest ih =>
    by_cases h : checkSitemapUrl env (urljoin base p) = true
    · simp [checkCommonGo, h, List.filter_cons, ih]
    · simp only [Bool.not_eq_true] at h
      simp [checkCommonGo, h, List.filter_cons, ih]

/-- C7 as amended: the sitemap-archival resolver probes exactly the fixed
ordered six-path list and accepts a URL only when HEAD answers 200 and the
GET content is confirmed (content type starting `application/xml` or
`text/xml`, or stripped body starting with an XML declaration); the full-site
resolver probes only the first three paths and accepts on the existence check
alone. -/
theorem common_location_probe_spec (env : ProbeEnv) (base : String) (u : String) :
    check_common_sitemap_locations env base =
      (common_sitemap_paths.map (fun p => urljoin base p)).filter (checkSitemapUrl env) ∧
    common_sitemap_paths =
      ["/sitemap.xml", "/sitemap_index.xml", "/sitemap-index.xml", "/sitemaps.xml",
       "/sitemap1.xml", "/sitemap_1.xml"] ∧
    (checkSitemapUrl env u = true ↔
      env.head u = some 200 ∧ ∃ ct body, env.get u = some (ct, body) ∧
        ("application/xml".toList.isPrefixOf ct.toList = true ∨
         "text/xml".toList.isPrefixOf ct.toList = true ∨
         "<?xml".toList.isPrefixOf (stripWs body.toList) = true)) ∧
    (∀ hd : String → Option Nat, ws_check_common_locations hd base =
      (ws_common_paths.map (fun p => urljoin base p)).filter
        (fun url => decide (hd url = some 200))) := by
  refine ⟨checkCommonGo_eq_filter env base common_sitemap_paths, rfl, ?_, ?_⟩
  · unfold checkSitemapUrl
    by_cases hh : env.head u = some 200
    · rw [if_pos hh]
      rcases hg : env.get u with _ | ctbody
      · simp [hg, hh]
      · simp [hg, hh, Bool.or_eq_true]
        constructor
        · intro h
          exact ⟨ctbody.1, ctbody.2, rfl, by tauto⟩
        · rintro ⟨ct, body, heq, hdisj⟩
          cases heq
          tauto
    · rw [if_neg hh]
      simp [hh]
  · intro hd
    exact wsCheckCommonGo_eq_filter hd base ws_common_paths

/-- Page document handed over by the HTML parsing collaborator: the text of
the first `<title>` element (if any) and the anchor tags carrying an href. -/
structure PageDoc where
  title : Option String
  anchors : List ATag
deriving DecidableEq

/-- Oracle result of fetching one page URL: a network error/timeout, or a
response with its HTTP status and parsed body. -/
inductive PageFetch
  | netError
  | http (status : Nat) (doc : PageDoc)
deriving DecidableEq

/-- Entry of `self.pages_data` (website_scraper.py lines 178-183). -/
structure PageRecord where
  url : String
  title : String
  filename : String
  filepath : String
deriving DecidableEq

/-- Kind of a disk write performed by the full-site run: a page file under
the pages directory, the offline index page, or the JSON report. -/
inductive PersistKind
  | pageFile (name : String)
  | indexFile
  | reportFile
deriving DecidableEq

/-- Mutable state of a `WebsiteScraper` run: `downloaded` is
`self.downloaded_urls`, `failed` is `self.failed_urls` (both Python sets,
modelled as duplicate-free insertion-ordered lists), `pagesData` is
`self.pages_data`, `files` is the contents of the pages directory keyed by
filename (a write to an existing name overwrites), `fetchLog` records each
`session.get` of a page with the number of stop-flag reads made so far,
`persistLog` records each disk write likewise, and `checks` counts the
stop-flag reads. -/
structure WSState where
  downloaded : List String
  failed : List String
  pagesData : List PageRecord
  files : List (String × List ATag)
  fetchLog : List (Nat × String)
  persistLog : List (Nat × PersistKind)
  checks : Nat
deriving DecidableEq

/-- Initial state of a full-site run (fresh `WebsiteScraper`). -/
def initWS : WSState := ⟨[], [], [], [], [], [], 0⟩

/-- Value read from the cooperative stop flag: `run_scraper` installs
`lambda: should_stop`, and within one run the flag is monotone (set by the
stop endpoint, reset only when the next run starts), so it is characterised
by `s`, the index of the first read that returns true. -/
def wsStopFlag (s : Nat) (st : WSState) : Bool := decide (s ≤ st.checks)

/-- State after one stop-flag read. -/
def wsBump (st : WSState) : WSState := { st with checks := st.checks + 1 }

/-- Python set insertion (`self.failed_urls.add(url)`). -/
def setAdd (l : List String) (x : String) : List String :=
  if x ∈ l then l else l ++ [x]

/-- Write a file into the pages directory: overwrite the entry with the same
name if present, create it otherwise (`open(filepath, 'w')`). -/
def filesWrite (files : List (String × List ATag)) (name : String)
    (content : List ATag) : List (String × List ATag) :=
  if name ∈ files.map Prod.fst then
    files.map (fun p => if p.1 = name then (name, content) else p)
  else files ++ [(name, content)]

/-- Model of `WebsiteScraper.download_page` (website_scraper.py lines
143-193): an already-downloaded URL is a no-op success; then the stop flag is
consulted and, if set, the function returns `False` touching nothing; then
the page is fetched (logged), a non-200 status or network error adds the URL
to `failed_urls`, and on success the links are rewritten, the title extracted
(stripped text, URL fallback), the file written under the sanitized filename,
the `PageRecord` appended and the URL added to `downloaded_urls`. -/
def download_page (base : String) (env : String → PageFetch) (s : Nat)
    (url : String) (st : WSState) : Bool × WSState :=
  if url ∈ st.downloaded then (true, st)
  else if wsStopFlag s st then (false, wsBump st)
  else
    let st1 := wsBump st
    match env url with
    | .netError =>
      (false, { st1 with failed := setAdd st1.failed url,
                         fetchLog := st1.fetchLog ++ [(st1.checks, url)] })
    | .http status doc =>
      if status ≠ 200 then
        (false, { st1 with failed := setAdd st1.failed url,
                           fetchLog := st1.fetchLog ++ [(st1.checks, url)] })
      else
        let filename := sanitize_filename url
        (true, { st1 with
            downloaded := st1.downloaded ++ [url],
            pagesData := st1.pagesData ++
              [⟨url, (match doc.title with | some t => pyStrip t | none => url),
                filename, "pages/" ++ filename⟩],
            files := filesWrite st1.files filename (fixLinks base url doc.anchors),
            fetchLog := st1.fetchLog ++ [(st1.checks, url)],
            persistLog := st1.persistLog ++ [(st1.checks, .pageFile filename)] })

/-- Model of the download loop of `WebsiteScraper.scrape_website`
(website_scraper.py lines 471-479): consult the stop flag before each page
and break when it is set; otherwise call `download_page` (whose result is
ignored) and continue. -/
def pageLoop (base : String) (env : String → PageFetch) (s : Nat) :
    List String → WSState → WSState
  | [], st => st
  | url :: rest, st =>
    if wsStopFlag s st then wsBump st
    else pageLoop base env s rest (download_page base env s url (wsBump st)).2

/-- JSON report of `WebsiteScraper.generate_report` (website_scraper.py lines
496-512); the wall-clock timestamp and the constant base-url field are not
modelled. -/
structure ScrapeReport where
  total_pages : Nat
  downloaded : Nat
  failed : Nat
  failed_urls : List String
  pages : List PageRecord
deriving DecidableEq

/-- Model of `WebsiteScraper.generate_report` (website_scraper.py lines
496-512). -/
def generate_report (st : WSState) : ScrapeReport :=
  ⟨st.pagesData.length, st.downloaded.length, st.failed.length, st.failed,
   st.pagesData⟩

/-- Crawl-target stage of `WebsiteScraper.scrape_website` (website_scraper.py
lines 457-464): fall back to the base URL when no URL was discovered, then
apply the page cap when one is configured (Python `if self.max_pages:` — a
cap of 0 is falsy and means no cap). -/
def crawlTargets (base : String) (max_pages : Option Nat) (urls : List String) :
    List String :=
  let urls1 := if urls = [] then [base] else urls
  match max_pages with
  | some m => if m = 0 then urls1 else urls1.take m
  | none => urls1

/-- Model of `WebsiteScraper.scrape_website` from the crawl-target stage
onward (website_scraper.py lines 457-494): build the crawl targets, run the
download loop, then write the index page when any page was materialized
(`create_index_page`) and always write the JSON report.  The sitemap
discovery stage that produces `urls` is modelled by `get_sitemap_urls` below
and composed with this function in `run_scraper`. -/
def scrape_website (base : String) (env : String → PageFetch) (s : Nat)
    (max_pages : Option Nat) (urls : List String) (st0 : WSState) :
    WSState × ScrapeReport :=
  let st := pageLoop base env s (crawlTargets base max_pages urls) st0
  let st := if st.pagesData ≠ [] then
      { st with persistLog := st.persistLog ++ [(st.checks, .indexFile)] }
    else st
  let report := generate_report st
  ({ st with persistLog := st.persistLog ++ [(st.checks, .reportFile)] }, report)

/-- Extraction loop of `WebsiteScraper.get_sitemap_urls` (website_scraper.py
lines 74-84): for each discovered sitemap, consult the stop flag (the
line-77 check) and break out of the loop when it is set; otherwise extract
URLs recursively with `_extract_urls_from_sitemap`, logging every sitemap
fetch of that recursion with the current flag-read count (the recursion
itself contains no further checks, so all its fetches follow the same read). -/
def sitemapPhase (senv : String → SitemapFetch) (fuel : Nat) (s : Nat) :
    List String → WSState → List String × WSState
  | [], st => ([], st)
  | sm :: rest, st =>
    if wsStopFlag s st then ([], wsBump st)
    else
      let r := extractUrlsFromSitemap senv fuel sm
      let more := sitemapPhase senv fuel s rest
        { wsBump st with
            fetchLog := (wsBump st).fetchLog ++
              r.2.map (fun u => ((wsBump st).checks, u)) }
      (r.1 ++ more.1, more.2)

/-- Model of `WebsiteScraper.get_sitemap_urls` (website_scraper.py lines
39-90): `seeds` is `sitemaps_found`, the union of the robots.txt `Sitemap:`
directives and the HEAD-probed well-known paths
(`ws_check_common_locations`), all gathered before the first stop-flag read
of the run — the line-77 check of the extraction loop; the URLs extracted by
the loop are then filtered to the base domain (line 87). -/
def get_sitemap_urls (base : String) (senv : String → SitemapFetch)
    (fuel : Nat) (s : Nat) (seeds : List String) (st : WSState) :
    List String × WSState :=
  let r := sitemapPhase senv fuel s seeds st
  (filterSitemapUrls base r.1, r.2)

/-- Model of `app.run_scraper` (app.py lines 48-79) on a fresh scraper: run
the full pipeline of `WebsiteScraper.scrape_website` — sitemap discovery
(`get_sitemap_urls`) followed by the download loop and the index/report
writes — then read `should_stop` once more; the outcome is "stopped" (`true`)
when the flag is set at that read, "completed" otherwise. -/
def run_scraper (base : String) (senv : String → SitemapFetch) (fuel : Nat)
    (env : String → PageFetch) (s : Nat) (max_pages : Option Nat)
    (seeds : List String) : WSState × ScrapeReport × Bool :=
  let d := get_sitemap_urls base senv fuel s seeds initWS
  let r := scrape_website base env s max_pages d.1 d.2
  (wsBump r.1, r.2, wsStopFlag s r.1)

/-- Page environment where every URL answers 200 with an empty titled page. -/
def okPageEnv : String → PageFetch := fun _ => .http 200 ⟨none, []⟩

/-- C10: when `download_page` observes the stop flag at its check (reached
only for URLs not already downloaded), it returns `False` and leaves every
piece of run state unchanged — nothing is fetched, nothing is written, and
the URL joins neither the downloaded nor the failed set, so a crawl target
skipped by cancellation appears in neither count of the final report. -/
theorem download_page_stop_frame (base : String) (env : String → PageFetch)
    (s : Nat) (url : String) (st : WSState)
    (hmem : url ∉ st.downloaded) (hstop : s ≤ st.checks) :
    download_page base env s url st = (false, wsBump st) ∧
    (wsBump st).downloaded = st.downloaded ∧ (wsBump st).failed = st.failed ∧
    (wsBump st).pagesData = st.pagesData ∧ (wsBump st).files = st.files ∧
    (wsBump st).fetchLog = st.fetchLog ∧ (wsBump st).persistLog = st.persistLog := by
  refine ⟨?_, rfl, rfl, rfl, rfl, rfl, rfl⟩
  unfold download_page
  rw [if_neg hmem]
  rw [if_pos (show wsStopFlag s st = true from by simp [wsStopFlag, hstop])]

/-- C10 witness: the frame theorem applied to a fresh state whose flag is
already set at read index 0. -/
theorem download_page_stop_frame_witness :
    ("https://e.com/a" ∉ initWS.downloaded) ∧ 0 ≤ initWS.checks ∧
    download_page "https://e.com" okPageEnv 0 "https://e.com/a" initWS =
      (false, wsBump initWS) :=
  ⟨by decide, by decide,
   (download_page_stop_frame "https://e.com" okPageEnv 0 "https://e.com/a" initWS
      (by decide) (by decide)).1⟩

theorem filesWrite_keys (files : List (String × List ATag)) (name : String)
    (content : List ATag) :
    (filesWrite files name content).map Prod.fst =
      if name ∈ files.map Prod.fst then files.map Prod.fst
      else files.map Prod.fst ++ [name] := by
  by_cases h : name ∈ files.map Prod.fst
  · unfold filesWrite
    rw [if_pos h, if_pos h, List.map_map]
    apply List.map_congr_left
    intro p _
    by_cases hp : p.1 = name
    · simp [hp]
    · simp [hp]
  · unfold filesWrite
    rw [if_neg h, if_neg h]
    simp

/-- Report-consistency invariant of a run state: the downloaded set and the
page-record list grow in lockstep, and the pages directory holds exactly one
file per distinct record filename. -/
def reportInv (st : WSState) : Prop :=
  st.downloaded.length = st.pagesData.length ∧
  (st.files.map Prod.fst).Nodup ∧
  ∀ f, f ∈ st.files.map Prod.fst ↔ f ∈ st.pagesData.map PageRecord.filename

theorem reportInv_success (st : WSState) (url title filename : String)
    (content : List ATag) (c : Nat) (h : reportInv st) :
    reportInv { st with
        downloaded := st.downloaded ++ [url],
        pagesData := st.pagesData ++ [⟨url, title, filename, "pages/" ++ filename⟩],
        files := filesWrite st.files filename content,
        fetchLog := st.fetchLog ++ [(c, url)],
        persistLog := st.persistLog ++ [(c, .pageFile filename)] } := by
  obtain ⟨h1, h2, h3⟩ := h
  refine ⟨by simp [h1], ?_, ?_⟩
  · rw [filesWrite_keys]
    by_cases hf : filename ∈ st.files.map Prod.fst
    · rw [if_pos hf]
      exact h2
    · rw [if_neg hf]
      simp [List.nodup_append, h2, hf]
  · intro f
    rw [filesWrite_keys]
    by_cases hf : filename ∈ st.files.map Prod.fst
    · rw [if_pos hf]
      simp only [List.map_append, List.map_cons, List.map_nil, List.mem_append,
        List.mem_singleton]
      constructor
      · intro hin
        exact Or.inl ((h3 f).mp hin)
      · rintro (hin | hin)
        · exact (h3 f).mpr hin
        · rw [hin]
          exact hf
    · rw [if_neg hf]
      simp only [List.map_append, List.map_cons, List.map_nil, List.mem_append,
        List.mem_singleton]
      constructor
      · rintro (hin | hin)
        · exact Or.inl ((h3 f).mp hin)
        · exact Or.inr hin
      · rintro (hin | hin)
        · exact Or.inl ((h3 f).mpr hin)
        · exact Or.inr hin

theorem download_page_reportInv (base : String) (env : String → PageFetch)
    (s : Nat) (url : String) (st : WSState) (h : reportInv st) :
    reportInv (download_page base env s url st).2 := by
  obtain ⟨h1, h2, h3⟩ := h
  by_cases hmem : url ∈ st.downloaded
  · have hd : download_page base env s url st = (true, st) := by
      simp [download_page, hmem]
    rw [hd]
    exact ⟨h1, h2, h3⟩
  · by_cases hstop : wsStopFlag s st = true
    · have hd : download_page base env s url st = (false, wsBump st) := by
        simp [download_page, hmem, hstop]
      rw [hd]
      exact ⟨h1, h2, h3⟩
    · rcases he : env url with _ | ⟨status, doc⟩
      · have hd : download_page base env s url st =
            (false, { wsBump st with
                failed := setAdd (wsBump st).failed url,
                fetchLog := (wsBump st).fetchLog ++ [((wsBump st).checks, url)] }) := by
          simp [download_page, hmem, hstop, he]
        rw [hd]
        exact ⟨h1, h2, h3⟩
      · by_cases hs : status = 200
        · have hd : download_page base env s url st =
              (true, { wsBump st with
                  downloaded := (wsBump st).downloaded ++ [url],
                  pagesData := (wsBump st).pagesData ++
                    [⟨url, (match doc.title with | some t => pyStrip t | none => url),
                      sanitize_filename url, "pages/" ++ sanitize_filename url⟩],
                  files := filesWrite (wsBump st).files (sanitize_filename url)
                    (fixLinks base url doc.anchors),
                  fetchLog := (wsBump st).fetchLog ++ [((wsBump st).checks, url)],
                  persistLog := (wsBump st).persistLog ++
                    [((wsBump st).checks, .pageFile (sanitize_filename url))] }) := by
            simp [download_page, hmem, hstop, he, hs]
          rw [hd]
          exact reportInv_success (wsBump st) url _ _ _ _ ⟨h1, h2, h3⟩
        · have hd : download_page base env s url st =
              (false, { wsBump st with
                  failed := setAdd (wsBump st).failed url,
                  fetchLog := (wsBump st).fetchLog ++ [((wsBump st).checks, url)] }) := by
            simp [download_page, hmem, hstop, he, hs]
          rw [hd]
          exact ⟨h1, h2, h3⟩

theorem pageLoop_reportInv (base : String) (env : String → PageFetch) (s : Nat) :
    ∀ (urls : List String) (st : WSState), reportInv st →
      reportInv (pageLoop base env s urls st) := by
  intro urls
  induction urls with
  | nil =>
    intro st h
    simpa [pageLoop] using h
  | cons url rest ih =>
    intro st h
    unfold pageLoop
    by_cases hstop : wsStopFlag s st = true
    · rw [if_pos hstop]
      exact h
    · rw [if_neg hstop]
      exact ih _ (download_page_reportInv base env s url (wsBump st) h)

theorem scrape_website_proj (base : String) (env : String → PageFetch) (s : Nat)
    (max_pages : Option Nat) (urls : List String) (st0 : WSState) :
    (scrape_website base env s max_pages urls st0).1.fetchLog =
      (pageLoop base env s (crawlTargets base max_pages urls) st0).fetchLog ∧
    (scrape_website base env s max_pages urls st0).1.pagesData =
      (pageLoop base env s (crawlTargets base max_pages urls) st0).pagesData ∧
    (scrape_website base env s max_pages urls st0).1.files =
      (pageLoop base env s (crawlTargets base max_pages urls) st0).files ∧
    (scrape_website base env s max_pages urls st0).1.checks =
      (pageLoop base env s (crawlTargets base max_pages urls) st0).checks ∧
    (scrape_website base env s max_pages urls st0).2 =
      generate_report (pageLoop base env s (crawlTargets base max_pages urls) st0) := by
  simp only [scrape_website]
  split <;> exact ⟨rfl, rfl, rfl, rfl, rfl⟩

/-- C3 as amended: at the end of every run the downloaded count in the report
equals the number of `PageRecord`s (and the report's total-pages count), and
the files under the pages directory are exactly the distinct record
filenames — so the file count equals the record count only when no two
downloaded URLs sanitize to the same filename, and is smaller on a collision
(see the collision counterexample). -/
theorem report_consistency (base : String) (env : String → PageFetch) (s : Nat)
    (max_pages : Option Nat) (urls : List String) :
    (scrape_website base env s max_pages urls initWS).2.downloaded =
      (scrape_website base env s max_pages urls initWS).2.pages.length ∧
    (scrape_website base env s max_pages urls initWS).2.downloaded =
      (scrape_website base env s max_pages urls initWS).2.total_pages ∧
    ((scrape_website base env s max_pages urls initWS).1.files.map Prod.fst).Nodup ∧
    ∀ f, f ∈ (scrape_website base env s max_pages urls initWS).1.files.map Prod.fst ↔
      f ∈ (scrape_website base env s max_pages urls initWS).2.pages.map
        PageRecord.filename := by
  obtain ⟨h1, h2, h3⟩ := pageLoop_reportInv base env s
    (crawlTargets base max_pages urls) initWS
    ⟨rfl, List.nodup_nil, fun f => by simp [initWS]⟩
  obtain ⟨_, _, hfiles, _, hrep⟩ :=
    scrape_website_proj base env s max_pages urls initWS
  rw [hfiles, hrep]
  exact ⟨h1, h1, h2, h3⟩

/-- C3 counterexample: the two distinct URLs `/a/b` and `/a_b` both sanitize
to `a_b.html`; a run downloading both reports two downloaded pages and two
`PageRecord`s, yet only one file exists under the pages directory — the
claimed equality with the file count fails. -/
theorem report_filecount_collision :
    (scrape_website "https://e.com" okPageEnv 1000 none
        ["https://e.com/a/b", "https://e.com/a_b"] initWS).2.downloaded = 2 ∧
    (scrape_website "https://e.com" okPageEnv 1000 none
        ["https://e.com/a/b", "https://e.com/a_b"] initWS).2.pages.length = 2 ∧
    (scrape_website "https://e.com" okPageEnv 1000 none
        ["https://e.com/a/b", "https://e.com/a_b"] initWS).1.files.length = 1 ∧
    (2 : Nat) ≠ 1 := by
  decide

/-- Cancellation bound on a run state: every page fetch and every page-file
write happened no later than the flag became observable (read count at most
`s`), i.e. nothing is fetched or written to the pages directory at or after
the observation of the stop flag. -/
def logsBounded (s : Nat) (st : WSState) : Prop :=
  (∀ e ∈ st.fetchLog, e.1 ≤ s) ∧
  ∀ e ∈ st.persistLog, (∃ f, e.2 = PersistKind.pageFile f) → e.1 ≤ s

theorem download_page_logsBounded (base : String) (env : String → PageFetch)
    (s : Nat) (url : String) (st : WSState) (h : logsBounded s st) :
    logsBounded s (download_page base env s url st).2 := by
  obtain ⟨h1, h2⟩ := h
  by_cases hmem : url ∈ st.downloaded
  · have hd : download_page base env s url st = (true, st) := by
      simp [download_page, hmem]
    rw [hd]
    exact ⟨h1, h2⟩
  · by_cases hstop : wsStopFlag s st = true
    · have hd : download_page base env s url st = (false, wsBump st) := by
        simp [download_page, hmem, hstop]
      rw [hd]
      exact ⟨h1, h2⟩
    · have hle : st.checks + 1 ≤ s := by
        simp [wsStopFlag] at hstop
        omega
      rcases he : env url with _ | ⟨status, doc⟩
      · have hd : download_page base env s url st =
            (false, { wsBump st with
                failed := setAdd (wsBump st).failed url,
                fetchLog := (wsBump st).fetchLog ++ [((wsBump st).checks, url)] }) := by
          simp [download_page, hmem, hstop, he]
        rw [hd]
        refine ⟨?_, h2⟩
        intro e hee
        rcases List.mem_append.mp hee with hin | hin
        · exact h1 e hin
        · rw [List.mem_singleton.mp hin]
          exact hle
      · by_cases hs : status = 200
        · have hd : download_page base env s url st =
              (true, { wsBump st with
                  downloaded := (wsBump st).downloaded ++ [url],
                  pagesData := (wsBump st).pagesData ++
                    [⟨url, (match doc.title with | some t => pyStrip t | none => url),
                      sanitize_filename url, "pages/" ++ sanitize_filename url⟩],
                  files := filesWrite (wsBump st).files (sanitize_filename url)
                    (fixLinks base url doc.anchors),
                  fetchLog := (wsBump st).fetchLog ++ [((wsBump st).checks, url)],
                  persistLog := (wsBump st).persistLog ++
                    [((wsBump st).checks, .pageFile (sanitize_filename url))] }) := by
            simp [download_page, hmem, hstop, he, hs]
          rw [hd]
          constructor
          · intro e hee
            rcases List.mem_append.mp hee with hin | hin
            · exact h1 e hin
            · rw [List.mem_singleton.mp hin]
              exact hle
          · intro e hee hex
            rcases List.mem_append.mp hee with hin | hin
            · exact h2 e hin hex
            · rw [List.mem_singleton.mp hin]
              exact hle
        · have hd : download_page base env s url st =
              (false, { wsBump st with
                  failed := setAdd (wsBump st).failed url,
                  fetchLog := (wsBump st).fetchLog ++ [((wsBump st).checks, url)] }) := by
            simp [download_page, hmem, hstop, he, hs]
          rw [hd]
          refine ⟨?_, h2⟩
          intro e hee
          rcases List.mem_append.mp hee with hin | hin
          · exact h1 e hin
          · rw [List.mem_singleton.mp hin]
            exact hle

theorem pageLoop_logsBounded (base : String) (env : String → PageFetch) (s : Nat) :
    ∀ (urls : List String) (st : WSState), logsBounded s st →
      logsBounded s (pageLoop base env s urls st) := by
  intro urls
  induction urls with
  | nil =>
    intro st h
    simpa [pageLoop] using h
  | cons url rest ih =>
    intro st h
    unfold pageLoop
    by_cases hstop : wsStopFlag s st = true
    · rw [if_pos hstop]
      exact h
    · rw [if_neg hstop]
      exact ih _ (download_page_logsBounded base env s url (wsBump st) h)

/-- Bound lemma for the discovery loop: every sitemap fetch it logs carries
a flag-read count of at most `s`, because each extraction step is guarded by
a stop-flag read that returned false. -/
theorem sitemapPhase_logsBounded (senv : String → SitemapFetch) (fuel : Nat) (s : Nat) :
    ∀ (seeds : List String) (st : WSState), logsBounded s st →
      logsBounded s (sitemapPhase senv fuel s seeds st).2 := by
  intro seeds
  induction seeds with
  | nil =>
    intro st h
    simpa [sitemapPhase] using h
  | cons sm rest ih =>
    intro st h
    obtain ⟨h1, h2⟩ := h
    unfold sitemapPhase
    by_cases hstop : wsStopFlag s st = true
    · rw [if_pos hstop]
      exact ⟨h1, h2⟩
    · rw [if_neg hstop]
      refine ih
        { wsBump st with
            fetchLog := (wsBump st).fetchLog ++
              (extractUrlsFromSitemap senv fuel sm).2.map
                (fun u => ((wsBump st).checks, u)) }
        ⟨?_, h2⟩
      intro e hee
      rcases List.mem_append.mp hee with hin | hin
      · exact h1 e hin
      · obtain ⟨u, hu1, hu2⟩ := List.mem_map.mp hin
        rw [← hu2]
        have hlt : st.checks + 1 ≤ s := by
          simp [wsStopFlag] at hstop
          omega
        simpa [wsBump] using hlt

/-- C2 as amended: once the stop flag is observed at one of its check points
(before a sitemap fetch in the discovery loop, or before a page fetch in the
download loop or inside `download_page`), no further fetch of either kind
starts and no further page file is written — every sitemap fetch, page fetch
and page-file write in the logs carries a flag-read count of at most `s`,
the index of the first true read.  However the run does not stop persisting:
the JSON report is always written after the loop, and the index page is
written whenever at least one page was materialized, both after the
observation; and the outcome reported by the control shell is "stopped"
exactly when the flag became set before its final read. -/
theorem stop_semantics (base : String) (senv : String → SitemapFetch) (fuel : Nat)
    (env : String → PageFetch) (s : Nat) (max_pages : Option Nat)
    (seeds : List String) :
    (∀ e ∈ (run_scraper base senv fuel env s max_pages seeds).1.fetchLog, e.1 ≤ s) ∧
    (∀ e ∈ (run_scraper base senv fuel env s max_pages seeds).1.persistLog,
        (∃ f, e.2 = PersistKind.pageFile f) → e.1 ≤ s) ∧
    ((run_scraper base senv fuel env s max_pages seeds).2.2 = true ↔
      s < (run_scraper base senv fuel env s max_pages seeds).1.checks) ∧
    (∃ e ∈ (run_scraper base senv fuel env s max_pages seeds).1.persistLog,
      e.2 = PersistKind.reportFile) ∧
    ((run_scraper base senv fuel env s max_pages seeds).1.pagesData ≠ [] →
      ∃ e ∈ (run_scraper base senv fuel env s max_pages seeds).1.persistLog,
        e.2 = PersistKind.indexFile) := by
  have hdb : logsBounded s (get_sitemap_urls base senv fuel s seeds initWS).2 :=
    sitemapPhase_logsBounded senv fuel s seeds initWS
      ⟨fun e he => absurd he (List.not_mem_nil e),
       fun e he => absurd he (List.not_mem_nil e)⟩
  obtain ⟨hb1, hb2⟩ := pageLoop_logsBounded base env s
    (crawlTargets base max_pages (get_sitemap_urls base senv fuel s seeds initWS).1)
    (get_sitemap_urls base senv fuel s seeds initWS).2 hdb
  refine ⟨?_, ?_, ?_, ?_, ?_⟩
  · intro e hee
    apply hb1 e
    have hf : (run_scraper base senv fuel env s max_pages seeds).1.fetchLog =
        (pageLoop base env s
          (crawlTargets base max_pages
            (get_sitemap_urls base senv fuel s seeds initWS).1)
          (get_sitemap_urls base senv fuel s seeds initWS).2).fetchLog := by
      simp only [run_scraper, scrape_website, wsBump]
      split <;> rfl
    rwa [hf] at hee
  · intro e hee hex
    have hp : (run_scraper base senv fuel env s max_pages seeds).1.persistLog =
        (pageLoop base env s
          (crawlTargets base max_pages
            (get_sitemap_urls base senv fuel s seeds initWS).1)
          (get_sitemap_urls base senv fuel s seeds initWS).2).persistLog ++
          ((if (pageLoop base env s
                (crawlTargets base max_pages
                  (get_sitemap_urls base senv fuel s seeds initWS).1)
                (get_sitemap_urls base senv fuel s seeds initWS).2).pagesData ≠ []
            then [((pageLoop base env s
                (crawlTargets base max_pages
                  (get_sitemap_urls base senv fuel s seeds initWS).1)
                (get_sitemap_urls base senv fuel s seeds initWS).2).checks,
                PersistKind.indexFile)] else []) ++
           [((pageLoop base env s
                (crawlTargets base max_pages
                  (get_sitemap_urls base senv fuel s seeds initWS).1)
                (get_sitemap_urls base senv fuel s seeds initWS).2).checks,
             PersistKind.reportFile)]) := by
      simp only [run_scraper, scrape_website, wsBump]
      split
      · next hcond => simp [hcond]
      · next hcond => simp [hcond]
    rw [hp] at hee
    rcases List.mem_append.mp hee with hin | hin
    · exact hb2 e hin hex
    · exfalso
      obtain ⟨f, hf2⟩ := hex
      rcases List.mem_append.mp hin with hin2 | hin2
      · by_cases hcond : (pageLoop base env s
            (crawlTargets base max_pages
              (get_sitemap_urls base senv fuel s seeds initWS).1)
            (get_sitemap_urls base senv fuel s seeds initWS).2).pagesData ≠ []
        · rw [if_pos hcond] at hin2
          rw [List.mem_singleton.mp hin2] at hf2
          cases hf2
        · rw [if_neg hcond] at hin2
          exact absurd hin2 (List.not_mem_nil e)
      · rw [List.mem_singleton.mp hin2] at hf2
        cases hf2
  · simp [run_scraper, wsBump, wsStopFlag, Nat.lt_succ_iff]
  · simp only [run_scraper, scrape_website, wsBump]
    split
    · exact ⟨_, List.mem_append_right _ (List.mem_singleton_self _), rfl⟩
    · exact ⟨_, List.mem_append_right _ (List.mem_singleton_self _), rfl⟩
  · intro hne
    have hpd : (run_scraper base senv fuel env s max_pages seeds).1.pagesData =
        (pageLoop base env s
          (crawlTargets base max_pages
            (get_sitemap_urls base senv fuel s seeds initWS).1)
          (get_sitemap_urls base senv fuel s seeds initWS).2).pagesData := by
      simp only [run_scraper, scrape_website, wsBump]
      split <;> rfl
    rw [hpd] at hne
    refine ⟨((pageLoop base env s
        (crawlTargets base max_pages
          (get_sitemap_urls base senv fuel s seeds initWS).1)
        (get_sitemap_urls base senv fuel s seeds initWS).2).checks,
      PersistKind.indexFile), ?_, rfl⟩
    have hp : (run_scraper base senv fuel env s max_pages seeds).1.persistLog =
        ((pageLoop base env s
            (crawlTargets base max_pages
              (get_sitemap_urls base senv fuel s seeds initWS).1)
            (get_sitemap_urls base senv fuel s seeds initWS).2).persistLog ++
          [((pageLoop base env s
              (crawlTargets base max_pages
                (get_sitemap_urls base senv fuel s seeds initWS).1)
              (get_sitemap_urls base senv fuel s seeds initWS).2).checks,
            PersistKind.indexFile)]) ++
          [((pageLoop base env s
              (crawlTargets base max_pages
                (get_sitemap_urls base senv fuel s seeds initWS).1)
              (get_sitemap_urls base senv fuel s seeds initWS).2).checks,
            PersistKind.reportFile)] := by
      simp only [run_scraper, scrape_website, wsBump]
      split
      · rfl
      · next hcond => exact absurd hne hcond
    rw [hp]
    exact List.mem_append_left _ (List.mem_append_right _ (List.mem_singleton_self _))

/-- Sitemap environment with one urlset sitemap listing two same-domain
pages. -/
def urlsetEnv : String → SitemapFetch := fun url =>
  if url = "https://e.com/sitemap.xml" then
    .ok (some ⟨"urlset", [], ["https://e.com/a", "https://e.com/b"]⟩)
  else .fetchFail

/-- C2 counterexample: with the flag first reading true at read index 3, the
run fetches one sitemap, downloads one page, observes the flag at the next
loop check and breaks — no further sitemap or page fetch starts (the fetch
log holds exactly the sitemap fetch at read count 1 and the page fetch at
read count 3) — yet it then writes the index page and the JSON report, both
recorded with read counts exceeding 3, i.e. strictly after the observation;
the claim's "persists nothing further" is false (the "stopped" outcome
itself is reported correctly). -/
theorem stop_persists_after_observation :
    (run_scraper "https://e.com" urlsetEnv 2 okPageEnv 3 none
        ["https://e.com/sitemap.xml"]).2.2 = true ∧
    (∃ e ∈ (run_scraper "https://e.com" urlsetEnv 2 okPageEnv 3 none
        ["https://e.com/sitemap.xml"]).1.persistLog,
      e.2 = PersistKind.indexFile ∧ 3 < e.1) ∧
    (∃ e ∈ (run_scraper "https://e.com" urlsetEnv 2 okPageEnv 3 none
        ["https://e.com/sitemap.xml"]).1.persistLog,
      e.2 = PersistKind.reportFile ∧ 3 < e.1) ∧
    (run_scraper "https://e.com" urlsetEnv 2 okPageEnv 3 none
        ["https://e.com/sitemap.xml"]).1.fetchLog =
      [(1, "https://e.com/sitemap.xml"), (3, "https://e.com/a")] := by
  decide

/-- C2 witness: the amended theorem applied to a concrete run through
discovery and download — its page list is nonempty, so the index write it
predicts exists. -/
theorem stop_semantics_witness :
    ((run_scraper "https://e.com" urlsetEnv 2 okPageEnv 9 none
        ["https://e.com/sitemap.xml"]).1.pagesData ≠ []) ∧
    ∃ e ∈ (run_scraper "https://e.com" urlsetEnv 2 okPageEnv 9 none
        ["https://e.com/sitemap.xml"]).1.persistLog,
      e.2 = PersistKind.indexFile :=
  ⟨by decide, (stop_semantics "https://e.com" urlsetEnv 2 okPageEnv 9 none
      ["https://e.com/sitemap.xml"]).2.2.2.2 (by decide)⟩
